import Mathlib

/-!
Shallow embedding of the Black-Scholes pricing/Greeks engine, the payoff
calculator and the sweep generator of `src/main.py`, together with proofs
of the specification's claims about them.

Python floats are modelled as real numbers; `scipy.stats.norm.pdf` /
`norm.cdf` are modelled by the exact standard normal density and its
cumulative integral.  Python exceptions are modelled by an `Except` value:
`ValueError` (both the two explicitly raised ones and the one raised by
`math.log` on a non-positive argument, whose message is "math domain
error") keeps its message, and `ZeroDivisionError` (raised by `/` when the
denominator is zero) is a separate constructor.
-/

namespace DynamicGreeks

open MeasureTheory

/-- Standard normal density, the real-valued model of `scipy.stats.norm.pdf`. -/
noncomputable def normPdf (x : ℝ) : ℝ :=
  Real.exp (-(x ^ 2) / 2) / Real.sqrt (2 * Real.pi)

/-- Standard normal cumulative distribution function, the real-valued model of
`scipy.stats.norm.cdf`. -/
noncomputable def normCdf (x : ℝ) : ℝ :=
  ∫ t in Set.Iic x, normPdf t

/-- A Python exception, as far as the engine can raise one. -/
inductive PyError : Type
  | valueError : String → PyError
  | zeroDivisionError : PyError
deriving DecidableEq

/-- The dictionary returned by `black_scholes_option_price_and_greeks`. -/
structure GreekSet : Type where
  price : ℝ
  delta : ℝ
  gamma : ℝ
  theta : ℝ
  vega : ℝ
  rho : ℝ

/-- Python float division: raises `ZeroDivisionError` when the denominator is
zero (`math.log(S / K)` is the one division in the engine whose denominator is
not provably positive at its evaluation point). -/
noncomputable def pyDiv (a b : ℝ) : Except PyError ℝ :=
  if b = 0 then Except.error PyError.zeroDivisionError else Except.ok (a / b)

/-- Python `math.log`: raises `ValueError("math domain error")` on a
non-positive argument. -/
noncomputable def pyLog (x : ℝ) : Except PyError ℝ :=
  if x ≤ 0 then Except.error (PyError.valueError ("math domain error"))
  else Except.ok (Real.log x)

/-- Python's `str.lower()` as applied to the option-type string (the engine
only compares the result against the ASCII literals `'call'` and `'put'`;
`Char.toLower` lowercases exactly the ASCII uppercase letters, as Python does
on them). -/
def lowerString (s : String) : String :=
  ⟨s.data.map Char.toLower⟩

/-- `d1` of the Black-Scholes formulas, as computed at `src/main.py` line 12
(on the path where `math.log(S / K)` succeeded). -/
noncomputable def bsD1 (S K T r q sigma : ℝ) : ℝ :=
  (Real.log (S / K) + (r - q + 0.5 * sigma ^ 2) * T) / (sigma * Real.sqrt T)

/-- `d2 = d1 - sigma * sqrt(T)`, `src/main.py` line 13. -/
noncomputable def bsD2 (S K T r q sigma : ℝ) : ℝ :=
  bsD1 S K T r q sigma - sigma * Real.sqrt T

/-- `black_scholes_option_price_and_greeks` of `src/main.py` (lines 8-44),
translated clause by clause:
* line 9: `if T <= 0 or sigma <= 0: raise ValueError(...)`;
* line 12: `d1 = (math.log(S / K) + (r - q + 0.5*sigma**2)*T)/(sigma*math.sqrt(T))`
  (the division `S / K` may raise `ZeroDivisionError`, the logarithm may raise
  a math domain `ValueError`; `math.sqrt(T)` cannot fail since `T > 0` here,
  and the outer division cannot fail since `sigma * sqrt T > 0`);
* lines 15-26: branch on `option_type.lower()` computing price, delta, theta
  and a first rho, or raising `ValueError` for an unknown type;
* lines 28-29: gamma and vega, shared by both branches (their denominators are
  nonzero on every path that reaches them, since `S / K > 0` forces `S ≠ 0`);
* lines 32-35: rho is then reassigned, overwriting the branch value;
* lines 37-44: the result dictionary. -/
noncomputable def black_scholes_option_price_and_greeks
    (S K T r q sigma : ℝ) (option_type : String) : Except PyError GreekSet :=
  if T ≤ 0 ∨ sigma ≤ 0 then
    Except.error (PyError.valueError ("Time to maturity and volatility must be positive."))
  else
    match pyDiv S K with
    | Except.error e => Except.error e
    | Except.ok ratio =>
      match pyLog ratio with
      | Except.error e => Except.error e
      | Except.ok lg =>
        let d1 : ℝ := (lg + (r - q + 0.5 * sigma ^ 2) * T) / (sigma * Real.sqrt T)
        let d2 : ℝ := d1 - sigma * Real.sqrt T
        let branch : Except PyError (ℝ × ℝ × ℝ × ℝ) :=
          if lowerString option_type = "call" then
            Except.ok
              (S * Real.exp (-q * T) * normCdf d1 - K * Real.exp (-r * T) * normCdf d2,
               Real.exp (-q * T) * normCdf d1,
               -(S * Real.exp (-q * T) * normPdf d1 * sigma) / (2 * Real.sqrt T)
                 - r * K * Real.exp (-r * T) * normCdf d2
                 + q * S * Real.exp (-q * T) * normCdf d1,
               K * T * Real.exp (-r * T) * normCdf d2)
          else if lowerString option_type = "put" then
            Except.ok
              (K * Real.exp (-r * T) * normCdf (-d2) - S * Real.exp (-q * T) * normCdf (-d1),
               -(Real.exp (-q * T) * normCdf (-d1)),
               -(S * Real.exp (-q * T) * normPdf d1 * sigma) / (2 * Real.sqrt T)
                 + r * K * Real.exp (-r * T) * normCdf (-d2)
                 - q * S * Real.exp (-q * T) * normCdf (-d1),
               -(K * T * Real.exp (-r * T) * normCdf (-d2)))
          else
            Except.error (PyError.valueError ("Option type must be 'call' or 'put'."))
        match branch with
        | Except.error e => Except.error e
        | Except.ok pdtr =>
          let gamma : ℝ := Real.exp (-q * T) * normPdf d1 / (S * sigma * Real.sqrt T)
          let vega : ℝ := S * Real.exp (-q * T) * normPdf d1 * Real.sqrt T
          let rho : ℝ :=
            if lowerString option_type = "call" then
              K * T * Real.exp (-r * T) * normCdf d2
            else
              -(K * T * Real.exp (-r * T) * normCdf (-d2))
          Except.ok
            { price := pdtr.1, delta := pdtr.2.1, gamma := gamma,
              theta := pdtr.2.2.1, vega := vega, rho := rho }

/-- `True` on a successful engine result, `False` on a raised exception. -/
def exceptOk {α : Type} : Except PyError α → Bool
  | Except.ok _ => true
  | Except.error _ => false

/-- The payoff computation of `src/main.py` (line 71 and, per sweep point,
line 101): `max(S - K, 0) if option_type == 'call' else max(K - S, 0)`.
Its only inputs are the spot, the strike and the option type string, so it is
total and independent of `T`, `r`, `q` and `sigma` by construction. -/
noncomputable def payoff (S K : ℝ) (option_type : String) : ℝ :=
  if option_type = "call" then max (S - K) 0 else max (K - S) 0

/-- `numpy.linspace start stop num` over the reals: `num` points
`start + (stop - start) * i / (num - 1)`, `i = 0, …, num - 1` (the caller in
`src/main.py` always passes `num = 100`). -/
noncomputable def linspace (start stop : ℝ) (num : ℕ) : List ℝ :=
  (List.range num).map (fun i : ℕ => start + (stop - start) * (i : ℝ) / ((num : ℝ) - 1))

/-- The sweep's spot samples, `src/main.py` line 84:
`np.linspace(max(50, S - 50), S + 50, 100)`. -/
noncomputable def S_range (S : ℝ) : List ℝ :=
  linspace (max 50 (S - 50)) (S + 50) 100

/-- The six parallel series accumulated by the loop at `src/main.py`
lines 94-101. -/
structure PlotData : Type where
  Delta : List ℝ
  Gamma : List ℝ
  Theta : List ℝ
  Vega : List ℝ
  Rho : List ℝ
  Payoff : List ℝ

/-- The body of the sweep loop (`src/main.py` lines 94-101) over an explicit
list of spot samples: for each sample the engine is invoked and each Greek is
appended to its series, together with the inline payoff; an exception raised
at any sample propagates out of the enclosing `try`, aborting the sweep. -/
noncomputable def plot_data_loop (K T r q sigma : ℝ) (option_type : String) :
    List ℝ → Except PyError PlotData
  | [] => Except.ok ⟨[], [], [], [], [], []⟩
  | s :: rest =>
    match black_scholes_option_price_and_greeks s K T r q sigma option_type with
    | Except.error e => Except.error e
    | Except.ok res =>
      match plot_data_loop K T r q sigma option_type rest with
      | Except.error e => Except.error e
      | Except.ok pd =>
        Except.ok ⟨res.delta :: pd.Delta, res.gamma :: pd.Gamma, res.theta :: pd.Theta,
                   res.vega :: pd.Vega, res.rho :: pd.Rho,
                   payoff s K option_type :: pd.Payoff⟩

/-- `plot_data` of `src/main.py` lines 84-101: the sweep loop run over
`S_range S`. -/
noncomputable def plot_data (S K T r q sigma : ℝ) (option_type : String) :
    Except PyError PlotData :=
  plot_data_loop K T r q sigma option_type (S_range S)

/-! ### Facts about the standard normal density and CDF -/

theorem normPdf_pos (x : ℝ) : 0 < normPdf x :=
  div_pos (Real.exp_pos _) (Real.sqrt_pos.mpr (by positivity))

theorem normPdf_neg (x : ℝ) : normPdf (-x) = normPdf x := by
  unfold normPdf
  rw [neg_sq]

theorem normPdf_eq_gauss (x : ℝ) :
    normPdf x = Real.exp (-(1/2 : ℝ) * x ^ 2) / Real.sqrt (2 * Real.pi) := by
  unfold normPdf
  ring_nf

theorem integrable_normPdf : Integrable normPdf := by
  have h : Integrable (fun x : ℝ => Real.exp (-(1/2 : ℝ) * x ^ 2)) :=
    integrable_exp_neg_mul_sq (by norm_num)
  have heq : normPdf = fun x : ℝ => Real.exp (-(1/2 : ℝ) * x ^ 2) / Real.sqrt (2 * Real.pi) :=
    funext normPdf_eq_gauss
  rw [heq]
  exact h.div_const _

theorem integral_normPdf : ∫ x, normPdf x = 1 := by
  rw [funext normPdf_eq_gauss, integral_div, integral_gaussian,
    show Real.pi / (1/2) = 2 * Real.pi by ring]
  exact div_self (ne_of_gt (Real.sqrt_pos.mpr (by positivity)))

theorem normCdf_nonneg (x : ℝ) : 0 ≤ normCdf x :=
  setIntegral_nonneg measurableSet_Iic (fun t _ => (normPdf_pos t).le)

theorem normCdf_add_neg (x : ℝ) : normCdf x + normCdf (-x) = 1 := by
  have h1 : normCdf (-x) = ∫ t in Set.Ioi x, normPdf t := by
    have h2 : (∫ t in Set.Iic (-x), normPdf t) = ∫ t in Set.Iic (-x), normPdf (-t) :=
      setIntegral_congr_fun measurableSet_Iic (fun t _ => (normPdf_neg t).symm)
    unfold normCdf
    rw [h2, integral_comp_neg_Iic, neg_neg]
  rw [h1]
  unfold normCdf
  rw [intervalIntegral.integral_Iic_add_Ioi integrable_normPdf.integrableOn
    integrable_normPdf.integrableOn, integral_normPdf]

theorem normCdf_le_one (x : ℝ) : normCdf x ≤ 1 := by
  have h := normCdf_add_neg x
  have h2 := normCdf_nonneg (-x)
  linarith

theorem normCdf_strictMono : StrictMono normCdf := by
  intro a b hab
  have hsub : normCdf b - normCdf a = ∫ t in a..b, normPdf t :=
    intervalIntegral.integral_Iic_sub_Iic integrable_normPdf.integrableOn
      integrable_normPdf.integrableOn
  have hpos : 0 < ∫ t in a..b, normPdf t :=
    intervalIntegral.intervalIntegral_pos_of_pos integrable_normPdf.intervalIntegrable
      normPdf_pos hab
  have : normCdf a < normCdf b := by linarith
  exact this

theorem normCdf_zero : normCdf 0 = 1/2 := by
  have h := normCdf_add_neg 0
  rw [neg_zero] at h
  linarith

/-! ### Evaluation of the engine on its reachable paths -/

theorem bs_eval_call (S K T r q sigma : ℝ) (option_type : String)
    (hot : lowerString option_type = "call")
    (hK0 : K ≠ 0) (hrat : 0 < S / K) (hT : 0 < T) (hsig : 0 < sigma) :
    black_scholes_option_price_and_greeks S K T r q sigma option_type =
      Except.ok
        { price := S * Real.exp (-q * T) * normCdf (bsD1 S K T r q sigma)
              - K * Real.exp (-r * T) * normCdf (bsD2 S K T r q sigma)
          delta := Real.exp (-q * T) * normCdf (bsD1 S K T r q sigma)
          gamma := Real.exp (-q * T) * normPdf (bsD1 S K T r q sigma)
              / (S * sigma * Real.sqrt T)
          theta := -(S * Real.exp (-q * T) * normPdf (bsD1 S K T r q sigma) * sigma)
                / (2 * Real.sqrt T)
              - r * K * Real.exp (-r * T) * normCdf (bsD2 S K T r q sigma)
              + q * S * Real.exp (-q * T) * normCdf (bsD1 S K T r q sigma)
          vega := S * Real.exp (-q * T) * normPdf (bsD1 S K T r q sigma) * Real.sqrt T
          rho := K * T * Real.exp (-r * T) * normCdf (bsD2 S K T r q sigma) } := by
  have hcond : ¬ (T ≤ 0 ∨ sigma ≤ 0) := by
    push_neg
    exact ⟨hT, hsig⟩
  have hrat2 : ¬ (S / K ≤ 0) := not_le.mpr hrat
  simp only [black_scholes_option_price_and_greeks, pyDiv, pyLog, if_neg hcond, if_neg hK0,
    if_neg hrat2, hot, if_pos, bsD1, bsD2, reduceIte]

theorem bs_eval_put (S K T r q sigma : ℝ) (option_type : String)
    (hot : lowerString option_type = "put")
    (hK0 : K ≠ 0) (hrat : 0 < S / K) (hT : 0 < T) (hsig : 0 < sigma) :
    black_scholes_option_price_and_greeks S K T r q sigma option_type =
      Except.ok
        { price := K * Real.exp (-r * T) * normCdf (-bsD2 S K T r q sigma)
              - S * Real.exp (-q * T) * normCdf (-bsD1 S K T r q sigma)
          delta := -(Real.exp (-q * T) * normCdf (-bsD1 S K T r q sigma))
          gamma := Real.exp (-q * T) * normPdf (bsD1 S K T r q sigma)
              / (S * sigma * Real.sqrt T)
          theta := -(S * Real.exp (-q * T) * normPdf (bsD1 S K T r q sigma) * sigma)
                / (2 * Real.sqrt T)
              + r * K * Real.exp (-r * T) * normCdf (-bsD2 S K T r q sigma)
              - q * S * Real.exp (-q * T) * normCdf (-bsD1 S K T r q sigma)
          vega := S * Real.exp (-q * T) * normPdf (bsD1 S K T r q sigma) * Real.sqrt T
          rho := -(K * T * Real.exp (-r * T) * normCdf (-bsD2 S K T r q sigma)) } := by
  have hcond : ¬ (T ≤ 0 ∨ sigma ≤ 0) := by
    push_neg
    exact ⟨hT, hsig⟩
  have hrat2 : ¬ (S / K ≤ 0) := not_le.mpr hrat
  have hne : (("put" : String) = "call") = False :=
    eq_false (by decide)
  simp only [black_scholes_option_price_and_greeks, pyDiv, pyLog, if_neg hcond, if_neg hK0,
    if_neg hrat2, hot, hne, if_false, if_pos, bsD1, bsD2, reduceIte, if_neg]

theorem bs_eval_badtype (S K T r q sigma : ℝ) (option_type : String)
    (hc : lowerString option_type ≠ "call") (hp : lowerString option_type ≠ "put")
    (hK0 : K ≠ 0) (hrat : 0 < S / K) (hT : 0 < T) (hsig : 0 < sigma) :
    black_scholes_option_price_and_greeks S K T r q sigma option_type =
      Except.error (PyError.valueError ("Option type must be 'call' or 'put'.")) := by
  have hcond : ¬ (T ≤ 0 ∨ sigma ≤ 0) := by
    push_neg
    exact ⟨hT, hsig⟩
  have hrat2 : ¬ (S / K ≤ 0) := not_le.mpr hrat
  simp only [black_scholes_option_price_and_greeks, pyDiv, pyLog, if_neg hcond, if_neg hK0,
    if_neg hrat2, if_neg hc, if_neg hp]

theorem bs_eval_param_error (S K T r q sigma : ℝ) (option_type : String)
    (h : T ≤ 0 ∨ sigma ≤ 0) :
    black_scholes_option_price_and_greeks S K T r q sigma option_type =
      Except.error
        (PyError.valueError ("Time to maturity and volatility must be positive.")) := by
  simp only [black_scholes_option_price_and_greeks, if_pos h]

theorem bs_eval_zero_strike (S K T r q sigma : ℝ) (option_type : String)
    (hcond : ¬ (T ≤ 0 ∨ sigma ≤ 0)) (hK0 : K = 0) :
    black_scholes_option_price_and_greeks S K T r q sigma option_type =
      Except.error PyError.zeroDivisionError := by
  simp only [black_scholes_option_price_and_greeks, pyDiv, if_neg hcond, hK0,
    eq_self_iff_true, if_true]

theorem bs_eval_domain_error (S K T r q sigma : ℝ) (option_type : String)
    (hcond : ¬ (T ≤ 0 ∨ sigma ≤ 0)) (hK0 : K ≠ 0) (hrat : S / K ≤ 0) :
    black_scholes_option_price_and_greeks S K T r q sigma option_type =
      Except.error (PyError.valueError ("math domain error")) := by
  simp only [black_scholes_option_price_and_greeks, pyDiv, pyLog, if_neg hcond, if_neg hK0,
    if_pos hrat]

/-! ### Claim theorems -/

/-- C2 (amended): the engine fails with the `InvalidParameter` `ValueError`
exactly when `T ≤ 0` or `sigma ≤ 0`, whatever the remaining arguments are (so
the check precedes the division, the logarithm, every normal-distribution
evaluation and the option-type dispatch); the message is a single fixed string
that names both constraints jointly rather than identifying the violated one. -/
theorem invalidParameter_iff (S K T r q sigma : ℝ) (option_type : String) :
    black_scholes_option_price_and_greeks S K T r q sigma option_type =
        Except.error
          (PyError.valueError ("Time to maturity and volatility must be positive.")) ↔
      (T ≤ 0 ∨ sigma ≤ 0) := by
  constructor
  · intro h
    by_contra hcond
    have hc := hcond
    push_neg at hc
    obtain ⟨hT, hsig⟩ := hc
    by_cases hK0 : K = 0
    · rw [bs_eval_zero_strike S K T r q sigma option_type hcond hK0] at h
      injection h with h2
      exact absurd h2 (by decide)
    · by_cases hrat : S / K ≤ 0
      · rw [bs_eval_domain_error S K T r q sigma option_type hcond hK0 hrat] at h
        injection h with h2
        exact absurd h2 (by decide)
      · push_neg at hrat
        by_cases hcall : lowerString option_type = "call"
        · rw [bs_eval_call S K T r q sigma option_type hcall hK0 hrat hT hsig] at h
          exact Except.noConfusion h
        · by_cases hput : lowerString option_type = "put"
          · rw [bs_eval_put S K T r q sigma option_type hput hK0 hrat hT hsig] at h
            exact Except.noConfusion h
          · rw [bs_eval_badtype S K T r q sigma option_type hcall hput hK0 hrat hT hsig] at h
            injection h with h2
            exact absurd h2 (by decide)
  · exact bs_eval_param_error S K T r q sigma option_type

/-- C2 counterexample: a violated time constraint (`T = -1`, valid volatility)
and a violated volatility constraint (valid time, `sigma = -1/5`) produce the
very same error value, so the message cannot name which of the two constraints
was violated. -/
theorem invalidParameter_message_same :
    black_scholes_option_price_and_greeks 100 100 (-1) (1/20) 0 (1/5) ("call") =
        Except.error
          (PyError.valueError ("Time to maturity and volatility must be positive.")) ∧
    black_scholes_option_price_and_greeks 100 100 1 (1/20) 0 (-(1/5)) ("call") =
        black_scholes_option_price_and_greeks 100 100 (-1) (1/20) 0 (1/5) ("call") := by
  have h1 := bs_eval_param_error 100 100 (-1) (1/20) 0 (1/5) ("call")
    (Or.inl (by norm_num))
  have h2 := bs_eval_param_error 100 100 1 (1/20) 0 (-(1/5)) ("call")
    (Or.inr (by norm_num))
  exact ⟨h1, h2.trans h1.symm⟩

/-- C9: the payoff calculator is a total function of the spot, the strike and
the option type alone (`T`, `r`, `q`, `sigma` are not among its arguments, so
the result is independent of them by construction); it returns
`max (S - K) 0` for a call and `max (K - S) 0` for a put (the source compares
the type string to `'call'` verbatim and treats everything else as a put), and
its value is never negative. -/
theorem payoff_spec (S K : ℝ) (option_type : String) :
    payoff S K ("call") = max (S - K) 0 ∧
    payoff S K ("put") = max (K - S) 0 ∧
    0 ≤ payoff S K option_type := by
  refine ⟨?_, ?_, ?_⟩
  · simp only [payoff, if_pos]
  · rw [payoff, if_neg (by decide)]
  · unfold payoff
    split
    · exact le_max_right _ _
    · exact le_max_right _ _

/-- C10 (amended): with `T > 0` and `sigma > 0` but the spot or the strike
non-positive, the engine only fails when the unguarded expression
`math.log(S / K)` actually leaves its domain: `K = 0` raises
`ZeroDivisionError` and `S / K ≤ 0` raises the math-domain `ValueError`, and
neither error equals one of the two declared ones; but when spot and strike
are both negative the ratio is positive and no failure occurs at all. -/
theorem unguarded_log_failure (S K T r q sigma : ℝ) (option_type : String)
    (hT : 0 < T) (hsig : 0 < sigma) :
    (K = 0 →
      black_scholes_option_price_and_greeks S K T r q sigma option_type =
        Except.error PyError.zeroDivisionError) ∧
    (K ≠ 0 → S / K ≤ 0 →
      black_scholes_option_price_and_greeks S K T r q sigma option_type =
        Except.error (PyError.valueError ("math domain error"))) ∧
    PyError.zeroDivisionError ≠
      PyError.valueError ("Time to maturity and volatility must be positive.") ∧
    PyError.zeroDivisionError ≠ PyError.valueError ("Option type must be 'call' or 'put'.") ∧
    PyError.valueError ("math domain error") ≠
      PyError.valueError ("Time to maturity and volatility must be positive.") ∧
    PyError.valueError ("math domain error") ≠
      PyError.valueError ("Option type must be 'call' or 'put'.") := by
  have hcond : ¬ (T ≤ 0 ∨ sigma ≤ 0) := by
    push_neg
    exact ⟨hT, hsig⟩
  refine ⟨fun hK0 => bs_eval_zero_strike S K T r q sigma option_type hcond hK0,
    fun hK0 hrat => bs_eval_domain_error S K T r q sigma option_type hcond hK0 hrat,
    by decide, by decide, by decide, by decide⟩

/-- C10 witness: at `S = -1`, `K = 100`, `T = 1`, `sigma = 1/5` the amended
theorem applies and its second clause fires: the ratio `-1/100` is negative,
so the engine raises the undeclared math-domain error. -/
theorem unguarded_log_failure_witness :
    (0 : ℝ) < 1 ∧ (0 : ℝ) < 1/5 ∧
    (((100 : ℝ) = 0 →
      black_scholes_option_price_and_greeks (-1) 100 1 (1/20) 0 (1/5) ("call") =
        Except.error PyError.zeroDivisionError) ∧
    ((100 : ℝ) ≠ 0 → (-1 : ℝ) / 100 ≤ 0 →
      black_scholes_option_price_and_greeks (-1) 100 1 (1/20) 0 (1/5) ("call") =
        Except.error (PyError.valueError ("math domain error"))) ∧
    PyError.zeroDivisionError ≠
      PyError.valueError ("Time to maturity and volatility must be positive.") ∧
    PyError.zeroDivisionError ≠ PyError.valueError ("Option type must be 'call' or 'put'.") ∧
    PyError.valueError ("math domain error") ≠
      PyError.valueError ("Time to maturity and volatility must be positive.") ∧
    PyError.valueError ("math domain error") ≠
      PyError.valueError ("Option type must be 'call' or 'put'.")) :=
  ⟨by norm_num, by norm_num,
    unguarded_log_failure (-1) 100 1 (1/20) 0 (1/5) ("call") (by norm_num) (by norm_num)⟩

/-- C10 counterexample: the claim asserts a failure for every input with
`spot ≤ 0` or `strike ≤ 0`, but at `S = K = -100` (both non-positive) the
ratio `S / K = 1` is positive, the logarithm is defined, and the engine
returns a `GreekSet` without any error. -/
theorem negative_spot_strike_no_failure :
    ((-100 : ℝ) ≤ 0) ∧
    exceptOk (black_scholes_option_price_and_greeks (-100) (-100) 1 (1/20) 0 (1/5)
      ("call")) = true := by
  refine ⟨by norm_num, ?_⟩
  rw [bs_eval_call (-100) (-100) 1 (1/20) 0 (1/5) ("call") (by decide) (by norm_num)
    (by norm_num) (by norm_num) (by norm_num)]
  rfl

/-- C5: with valid positive parameters (spot and strike positive per the
`OptionParameters` data-model invariant, `T > 0`, `sigma > 0`), the engine
raises the `InvalidOptionType` `ValueError` exactly when the lowercased
option-type string is neither `"call"` nor `"put"`; every case variant of
`'call'` or `'put'` is accepted and yields a `GreekSet`. -/
theorem invalidOptionType_iff (S K T r q sigma : ℝ) (option_type : String)
    (hS : 0 < S) (hK : 0 < K) (hT : 0 < T) (hsig : 0 < sigma) :
    (black_scholes_option_price_and_greeks S K T r q sigma option_type =
        Except.error (PyError.valueError ("Option type must be 'call' or 'put'.")) ↔
      ¬ (lowerString option_type = "call" ∨ lowerString option_type = "put")) ∧
    ((lowerString option_type = "call" ∨ lowerString option_type = "put") →
      ∃ g, black_scholes_option_price_and_greeks S K T r q sigma option_type =
        Except.ok g) := by
  have hK0 : K ≠ 0 := ne_of_gt hK
  have hrat : 0 < S / K := div_pos hS hK
  refine ⟨⟨?_, ?_⟩, ?_⟩
  · intro h hor
    rcases hor with hc | hp
    · rw [bs_eval_call S K T r q sigma option_type hc hK0 hrat hT hsig] at h
      exact Except.noConfusion h
    · rw [bs_eval_put S K T r q sigma option_type hp hK0 hrat hT hsig] at h
      exact Except.noConfusion h
  · intro hn
    push_neg at hn
    exact bs_eval_badtype S K T r q sigma option_type hn.1 hn.2 hK0 hrat hT hsig
  · intro hor
    rcases hor with hc | hp
    · exact ⟨_, bs_eval_call S K T r q sigma option_type hc hK0 hrat hT hsig⟩
    · exact ⟨_, bs_eval_put S K T r q sigma option_type hp hK0 hrat hT hsig⟩

/-- C5 witness: the theorem instantiated at a concrete valid parameter set and
the mixed-case option type `"CaLL"`, whose lowercasing is `"call"`. -/
theorem invalidOptionType_iff_witness :
    (0 : ℝ) < 100 ∧ (0 : ℝ) < 1 ∧ (0 : ℝ) < 1/5 ∧
    ((black_scholes_option_price_and_greeks 100 100 1 (1/20) 0 (1/5) ("CaLL") =
        Except.error (PyError.valueError ("Option type must be 'call' or 'put'.")) ↔
      ¬ (lowerString ("CaLL") = "call" ∨ lowerString ("CaLL") = "put")) ∧
    ((lowerString ("CaLL") = "call" ∨ lowerString ("CaLL") = "put") →
      ∃ g, black_scholes_option_price_and_greeks 100 100 1 (1/20) 0 (1/5) ("CaLL") =
        Except.ok g)) :=
  ⟨by norm_num, by norm_num, by norm_num,
    invalidOptionType_iff 100 100 1 (1/20) 0 (1/5) ("CaLL") (by norm_num) (by norm_num)
      (by norm_num) (by norm_num)⟩

/-- C1 (amended): for every valid parameter set, dividend yield included, the
Put rho the engine returns is `-K*T*exp(-r*T)*Φ(-d2)` — the canonical form
with `Φ(-d2)`, not the `Φ(-d1)` the claim (following the spec's reading of
the source) states: both the put branch (line 24) and the reassignment
(line 35) of `src/main.py` use `norm.cdf(-d2)`. -/
theorem put_rho_uses_phi_neg_d2 (S K T r q sigma : ℝ)
    (hS : 0 < S) (hK : 0 < K) (hT : 0 < T) (hsig : 0 < sigma) :
    ∃ g, black_scholes_option_price_and_greeks S K T r q sigma ("put") = Except.ok g ∧
      g.rho = -(K * T * Real.exp (-r * T) * normCdf (-bsD2 S K T r q sigma)) :=
  ⟨_, bs_eval_put S K T r q sigma ("put") (by decide) (ne_of_gt hK) (div_pos hS hK) hT hsig,
    rfl⟩

/-- C1 witness: the amended theorem instantiated at the concrete valid
parameter set `S = K = 100`, `T = 1`, `r = 1/20`, `q = 3/100`, `sigma = 1/5`
(a nonzero dividend yield). -/
theorem put_rho_uses_phi_neg_d2_witness :
    (0 : ℝ) < 100 ∧ (0 : ℝ) < 1 ∧ (0 : ℝ) < 1/5 ∧
    ∃ g, black_scholes_option_price_and_greeks 100 100 1 (1/20) (3/100) (1/5) ("put") =
        Except.ok g ∧
      g.rho = -(100 * 1 * Real.exp (-(1/20) * 1) *
        normCdf (-bsD2 100 100 1 (1/20) (3/100) (1/5))) :=
  ⟨by norm_num, by norm_num, by norm_num,
    put_rho_uses_phi_neg_d2 100 100 1 (1/20) (3/100) (1/5) (by norm_num) (by norm_num)
      (by norm_num) (by norm_num)⟩

/-- C1 counterexample: at `S = K = 100`, `T = 1`, `r = 1/20`, `q = 3/100`,
`sigma = 1/5` (valid, with nonzero dividend yield) one has `d1 = 1/5` and
`d2 = 0`, so the claimed value `-K*T*exp(-r*T)*Φ(-d1)` uses `Φ(-1/5)` while
the engine returns `-K*T*exp(-r*T)*Φ(0)`, and `Φ(-1/5) < Φ(0)` by strict
monotonicity of the normal CDF; the returned Put rho is therefore not the
claimed `Φ(-d1)` expression. -/
theorem put_rho_not_phi_neg_d1 :
    Except.map GreekSet.rho
        (black_scholes_option_price_and_greeks 100 100 1 (1/20) (3/100) (1/5) ("put")) ≠
      Except.ok (-(100 * 1 * Real.exp (-(1/20) * 1) *
        normCdf (-bsD1 100 100 1 (1/20) (3/100) (1/5)))) := by
  have hd1 : bsD1 100 100 1 (1/20) (3/100) (1/5) = 1/5 := by
    unfold bsD1
    rw [show (100 : ℝ) / 100 = 1 by norm_num, Real.log_one, Real.sqrt_one]
    norm_num
  have hd2 : bsD2 100 100 1 (1/20) (3/100) (1/5) = 0 := by
    unfold bsD2
    rw [hd1, Real.sqrt_one]
    norm_num
  rw [bs_eval_put 100 100 1 (1/20) (3/100) (1/5) ("put") (by decide) (by norm_num)
    (by norm_num) (by norm_num) (by norm_num)]
  simp only [Except.map, hd1, hd2, neg_zero]
  intro h
  injection h with h2
  have hmono : normCdf (-(1/5)) < normCdf 0 := normCdf_strictMono (by norm_num)
  have hexp : (0 : ℝ) < Real.exp (-(1/20) * 1) := Real.exp_pos _
  have hcdf : normCdf 0 = normCdf (-(1/5)) := by
    have h3 : (100 : ℝ) * 1 * Real.exp (-(1/20) * 1) ≠ 0 := by positivity
    have h4 : (100 : ℝ) * 1 * Real.exp (-(1/20) * 1) * normCdf 0 =
        100 * 1 * Real.exp (-(1/20) * 1) * normCdf (-(1/5)) := by linarith [neg_inj.mp h2]
    exact mul_left_cancel₀ h3 h4
  linarith

/-- C3: put-call parity holds exactly over the reals: for every valid
parameter set both engine invocations succeed and
`call.price - put.price = S*exp(-q*T) - K*exp(-r*T)`, a consequence of
`Φ(x) + Φ(-x) = 1`. -/
theorem put_call_parity (S K T r q sigma : ℝ)
    (hS : 0 < S) (hK : 0 < K) (hT : 0 < T) (hsig : 0 < sigma) :
    ∃ gc gp,
      black_scholes_option_price_and_greeks S K T r q sigma ("call") = Except.ok gc ∧
      black_scholes_option_price_and_greeks S K T r q sigma ("put") = Except.ok gp ∧
      gc.price - gp.price = S * Real.exp (-q * T) - K * Real.exp (-r * T) := by
  refine ⟨_, _,
    bs_eval_call S K T r q sigma ("call") (by decide) (ne_of_gt hK) (div_pos hS hK) hT hsig,
    bs_eval_put S K T r q sigma ("put") (by decide) (ne_of_gt hK) (div_pos hS hK) hT hsig,
    ?_⟩
  have h1 := normCdf_add_neg (bsD1 S K T r q sigma)
  have h2 := normCdf_add_neg (bsD2 S K T r q sigma)
  dsimp only
  linear_combination S * Real.exp (-q * T) * h1 - K * Real.exp (-r * T) * h2

/-- C3 witness: the parity theorem instantiated at the concrete valid
parameter set `S = K = 100`, `T = 1`, `r = 1/20`, `q = 3/100`, `sigma = 1/5`. -/
theorem put_call_parity_witness :
    (0 : ℝ) < 100 ∧ (0 : ℝ) < 1 ∧ (0 : ℝ) < 1/5 ∧
    ∃ gc gp,
      black_scholes_option_price_and_greeks 100 100 1 (1/20) (3/100) (1/5) ("call") =
        Except.ok gc ∧
      black_scholes_option_price_and_greeks 100 100 1 (1/20) (3/100) (1/5) ("put") =
        Except.ok gp ∧
      gc.price - gp.price =
        100 * Real.exp (-(3/100) * 1) - 100 * Real.exp (-(1/20) * 1) :=
  ⟨by norm_num, by norm_num, by norm_num,
    put_call_parity 100 100 1 (1/20) (3/100) (1/5) (by norm_num) (by norm_num) (by norm_num)
      (by norm_num)⟩

/-- C6: for every valid parameter set the Call delta lies in
`[0, exp(-q*T)]` and the Put delta lies in `[-exp(-q*T), 0]`, since
`0 ≤ Φ ≤ 1`. -/
theorem delta_bounds (S K T r q sigma : ℝ)
    (hS : 0 < S) (hK : 0 < K) (hT : 0 < T) (hsig : 0 < sigma) :
    ∃ gc gp,
      black_scholes_option_price_and_greeks S K T r q sigma ("call") = Except.ok gc ∧
      black_scholes_option_price_and_greeks S K T r q sigma ("put") = Except.ok gp ∧
      0 ≤ gc.delta ∧ gc.delta ≤ Real.exp (-q * T) ∧
      -Real.exp (-q * T) ≤ gp.delta ∧ gp.delta ≤ 0 := by
  refine ⟨_, _,
    bs_eval_call S K T r q sigma ("call") (by decide) (ne_of_gt hK) (div_pos hS hK) hT hsig,
    bs_eval_put S K T r q sigma ("put") (by decide) (ne_of_gt hK) (div_pos hS hK) hT hsig,
    ?_, ?_, ?_, ?_⟩ <;> dsimp only
  · exact mul_nonneg (Real.exp_pos _).le (normCdf_nonneg _)
  · calc Real.exp (-q * T) * normCdf (bsD1 S K T r q sigma)
        ≤ Real.exp (-q * T) * 1 :=
          mul_le_mul_of_nonneg_left (normCdf_le_one _) (Real.exp_pos _).le
      _ = Real.exp (-q * T) := mul_one _
  · have h : Real.exp (-q * T) * normCdf (-bsD1 S K T r q sigma) ≤ Real.exp (-q * T) := by
      calc Real.exp (-q * T) * normCdf (-bsD1 S K T r q sigma)
          ≤ Real.exp (-q * T) * 1 :=
            mul_le_mul_of_nonneg_left (normCdf_le_one _) (Real.exp_pos _).le
        _ = Real.exp (-q * T) := mul_one _
    linarith
  · have h : 0 ≤ Real.exp (-q * T) * normCdf (-bsD1 S K T r q sigma) :=
      mul_nonneg (Real.exp_pos _).le (normCdf_nonneg _)
    linarith

/-- C6 witness: the delta-bounds theorem instantiated at the concrete valid
parameter set `S = K = 100`, `T = 1`, `r = 1/20`, `q = 3/100`, `sigma = 1/5`. -/
theorem delta_bounds_witness :
    (0 : ℝ) < 100 ∧ (0 : ℝ) < 1 ∧ (0 : ℝ) < 1/5 ∧
    ∃ gc gp,
      black_scholes_option_price_and_greeks 100 100 1 (1/20) (3/100) (1/5) ("call") =
        Except.ok gc ∧
      black_scholes_option_price_and_greeks 100 100 1 (1/20) (3/100) (1/5) ("put") =
        Except.ok gp ∧
      0 ≤ gc.delta ∧ gc.delta ≤ Real.exp (-(3/100) * 1) ∧
      -Real.exp (-(3/100) * 1) ≤ gp.delta ∧ gp.delta ≤ 0 :=
  ⟨by norm_num, by norm_num, by norm_num,
    delta_bounds 100 100 1 (1/20) (3/100) (1/5) (by norm_num) (by norm_num) (by norm_num)
      (by norm_num)⟩

/-- C7: for every valid parameter set gamma and vega are nonnegative and are
the same for the Call and the Put with otherwise equal inputs (they are
computed outside the option-type branch from the shared `d1`). -/
theorem gamma_vega_shared_nonneg (S K T r q sigma : ℝ)
    (hS : 0 < S) (hK : 0 < K) (hT : 0 < T) (hsig : 0 < sigma) :
    ∃ gc gp,
      black_scholes_option_price_and_greeks S K T r q sigma ("call") = Except.ok gc ∧
      black_scholes_option_price_and_greeks S K T r q sigma ("put") = Except.ok gp ∧
      0 ≤ gc.gamma ∧ 0 ≤ gc.vega ∧ gc.gamma = gp.gamma ∧ gc.vega = gp.vega := by
  refine ⟨_, _,
    bs_eval_call S K T r q sigma ("call") (by decide) (ne_of_gt hK) (div_pos hS hK) hT hsig,
    bs_eval_put S K T r q sigma ("put") (by decide) (ne_of_gt hK) (div_pos hS hK) hT hsig,
    ?_, ?_, rfl, rfl⟩ <;> dsimp only
  · exact div_nonneg (mul_nonneg (Real.exp_pos _).le (normPdf_pos _).le)
      (mul_nonneg (mul_nonneg hS.le hsig.le) (Real.sqrt_nonneg T))
  · exact mul_nonneg (mul_nonneg (mul_nonneg hS.le (Real.exp_pos _).le) (normPdf_pos _).le)
      (Real.sqrt_nonneg T)

/-- C7 witness: the gamma/vega theorem instantiated at the concrete valid
parameter set `S = K = 100`, `T = 1`, `r = 1/20`, `q = 3/100`, `sigma = 1/5`. -/
theorem gamma_vega_shared_nonneg_witness :
    (0 : ℝ) < 100 ∧ (0 : ℝ) < 1 ∧ (0 : ℝ) < 1/5 ∧
    ∃ gc gp,
      black_scholes_option_price_and_greeks 100 100 1 (1/20) (3/100) (1/5) ("call") =
        Except.ok gc ∧
      black_scholes_option_price_and_greeks 100 100 1 (1/20) (3/100) (1/5) ("put") =
        Except.ok gp ∧
      0 ≤ gc.gamma ∧ 0 ≤ gc.vega ∧ gc.gamma = gp.gamma ∧ gc.vega = gp.vega :=
  ⟨by norm_num, by norm_num, by norm_num,
    gamma_vega_shared_nonneg 100 100 1 (1/20) (3/100) (1/5) (by norm_num) (by norm_num)
      (by norm_num) (by norm_num)⟩

/-- C4: for every positive current spot, the sweep's spot samples are the 100
values `a + (b - a) * i / 99`, `i = 0, …, 99`, with `a = max 50 (S - 50)` and
`b = S + 50` — evenly spaced over the closed interval `[a, b]` (the formula
gives `a` at `i = 0` and `b` at `i = 99`) — and the sequence is strictly
ascending. -/
theorem sweep_spot_samples (S : ℝ) (hS : 0 < S) :
    (S_range S).length = 100 ∧
    (∀ i (h : i < (S_range S).length),
      (S_range S).get ⟨i, h⟩ =
        max 50 (S - 50) + (S + 50 - max 50 (S - 50)) * i / 99) ∧
    (S_range S).Pairwise (· < ·) := by
  have hget : ∀ i (h : i < (S_range S).length),
      (S_range S).get ⟨i, h⟩ =
        max 50 (S - 50) + (S + 50 - max 50 (S - 50)) * i / 99 := by
    intro i h
    simp only [S_range, linspace, List.get_eq_getElem, List.getElem_map, List.getElem_range]
    norm_num
  refine ⟨by simp only [S_range, linspace, List.length_map, List.length_range], hget, ?_⟩
  rw [List.pairwise_iff_get]
  intro i j hij
  rw [hget i i.isLt, hget j j.isLt]
  have hc : 0 < S + 50 - max 50 (S - 50) := by
    rcases max_cases (50 : ℝ) (S - 50) with ⟨hm, _⟩ | ⟨hm, _⟩ <;> rw [hm] <;> linarith
  have hij2 : ((i : ℕ) : ℝ) < ((j : ℕ) : ℝ) := by
    exact_mod_cast hij
  have hmul : (S + 50 - max 50 (S - 50)) * i < (S + 50 - max 50 (S - 50)) * j :=
    mul_lt_mul_of_pos_left hij2 hc
  have hdiv : (S + 50 - max 50 (S - 50)) * i / 99 < (S + 50 - max 50 (S - 50)) * j / 99 := by
    apply div_lt_div_of_pos_right hmul
    norm_num
  linarith

/-- C4 witness: the sample theorem instantiated at the concrete positive spot
`S = 100` (where the window floor is inactive: `a = 50`, `b = 150`). -/
theorem sweep_spot_samples_witness :
    (0 : ℝ) < 100 ∧
    ((S_range 100).length = 100 ∧
    (∀ i (h : i < (S_range (100 : ℝ)).length),
      (S_range (100 : ℝ)).get ⟨i, h⟩ =
        max 50 ((100 : ℝ) - 50) + ((100 : ℝ) + 50 - max 50 ((100 : ℝ) - 50)) * i / 99) ∧
    (S_range (100 : ℝ)).Pairwise (· < ·)) :=
  ⟨by norm_num, sweep_spot_samples 100 (by norm_num)⟩

/-- Structural specification of the sweep loop: a successful run over any
sample list yields six series of the same length as the list, whose `i`-th
entries are the Greeks of the engine at the `i`-th sample and the payoff at
the `i`-th sample. -/
theorem plot_data_loop_spec (K T r q sigma : ℝ) (option_type : String) (l : List ℝ) :
    ∀ pd : PlotData,
      plot_data_loop K T r q sigma option_type l = Except.ok pd →
      (pd.Delta.length = l.length ∧ pd.Gamma.length = l.length ∧
        pd.Theta.length = l.length ∧ pd.Vega.length = l.length ∧
        pd.Rho.length = l.length ∧ pd.Payoff.length = l.length) ∧
      ∀ (i : ℕ) (s : ℝ), l[i]? = some s →
        ∃ g, black_scholes_option_price_and_greeks s K T r q sigma option_type =
            Except.ok g ∧
          pd.Delta[i]? = some g.delta ∧ pd.Gamma[i]? = some g.gamma ∧
          pd.Theta[i]? = some g.theta ∧ pd.Vega[i]? = some g.vega ∧
          pd.Rho[i]? = some g.rho ∧ pd.Payoff[i]? = some (payoff s K option_type) := by
  induction l with
  | nil =>
    intro pd h
    simp only [plot_data_loop] at h
    injection h with h2
    subst h2
    refine ⟨by simp, ?_⟩
    intro i s hs
    simp at hs
  | cons s0 rest ih =>
    intro pd h
    simp only [plot_data_loop] at h
    rcases hbs : black_scholes_option_price_and_greeks s0 K T r q sigma option_type with
      e | g0
    · rw [hbs] at h
      exact Except.noConfusion h
    · rw [hbs] at h
      rcases hrest : plot_data_loop K T r q sigma option_type rest with e2 | pd2
      · rw [hrest] at h
        exact Except.noConfusion h
      · rw [hrest] at h
        injection h with h2
        subst h2
        obtain ⟨⟨hD, hG, hT2, hV, hR, hP⟩, hidx⟩ := ih pd2 hrest
        refine ⟨by simp [hD, hG, hT2, hV, hR, hP], ?_⟩
        intro i s hs
        cases i with
        | zero =>
          simp only [List.getElem?_cons_zero, Option.some.injEq] at hs
          subst hs
          exact ⟨g0, hbs, by simp⟩
        | succ i =>
          simp only [List.getElem?_cons_succ] at hs ⊢
          exact hidx i s hs

/-- C8: a successful sweep yields six series whose common length is the
number of sampled spot points, and whose `i`-th entries are computed from the
`i`-th spot sample of the ascending sample sequence. -/
theorem sweep_series_aligned (S K T r q sigma : ℝ) (option_type : String) (pd : PlotData)
    (h : plot_data S K T r q sigma option_type = Except.ok pd) :
    (pd.Delta.length = (S_range S).length ∧ pd.Gamma.length = (S_range S).length ∧
      pd.Theta.length = (S_range S).length ∧ pd.Vega.length = (S_range S).length ∧
      pd.Rho.length = (S_range S).length ∧ pd.Payoff.length = (S_range S).length) ∧
    ∀ (i : ℕ) (s : ℝ), (S_range S)[i]? = some s →
      ∃ g, black_scholes_option_price_and_greeks s K T r q sigma option_type =
          Except.ok g ∧
        pd.Delta[i]? = some g.delta ∧ pd.Gamma[i]? = some g.gamma ∧
        pd.Theta[i]? = some g.theta ∧ pd.Vega[i]? = some g.vega ∧
        pd.Rho[i]? = some g.rho ∧ pd.Payoff[i]? = some (payoff s K option_type) :=
  plot_data_loop_spec K T r q sigma option_type (S_range S) pd h

/-- Every sample produced by `S_range 100` is positive. -/
theorem S_range_100_pos : ∀ s ∈ S_range (100 : ℝ), (0 : ℝ) < s := by
  intro s hs
  simp only [S_range, linspace, List.mem_map, List.mem_range] at hs
  obtain ⟨i, _, rfl⟩ := hs
  have h0 : (0 : ℝ) ≤ (i : ℝ) := Nat.cast_nonneg i
  have hmax : max (50 : ℝ) (100 - 50) = 50 := by norm_num
  rw [hmax]
  have h1 : (0 : ℝ) ≤ ((100 : ℝ) + 50 - 50) * i / (((100 : ℕ) : ℝ) - 1) := by positivity
  linarith

/-- The sweep loop succeeds on any list of positive samples when the strike,
maturity and volatility are positive and the option type lowercases to
`call` or `put`. -/
theorem plot_data_loop_ok (K T r q sigma : ℝ) (option_type : String)
    (hot : lowerString option_type = "call" ∨ lowerString option_type = "put")
    (hK : 0 < K) (hT : 0 < T) (hsig : 0 < sigma) (l : List ℝ) (hpos : ∀ s ∈ l, 0 < s) :
    ∃ pd, plot_data_loop K T r q sigma option_type l = Except.ok pd := by
  induction l with
  | nil => exact ⟨⟨[], [], [], [], [], []⟩, rfl⟩
  | cons s0 rest ih =>
    obtain ⟨pd2, hpd2⟩ := ih (fun t ht => hpos t (List.mem_cons_of_mem _ ht))
    have hs0 : 0 < s0 := hpos s0 (List.mem_cons_self _ _)
    have hex : ∃ g, black_scholes_option_price_and_greeks s0 K T r q sigma option_type =
        Except.ok g := by
      rcases hot with hc | hp
      · exact ⟨_, bs_eval_call s0 K T r q sigma option_type hc (ne_of_gt hK)
          (div_pos hs0 hK) hT hsig⟩
      · exact ⟨_, bs_eval_put s0 K T r q sigma option_type hp (ne_of_gt hK)
          (div_pos hs0 hK) hT hsig⟩
    obtain ⟨g, hg⟩ := hex
    refine ⟨⟨g.delta :: pd2.Delta, g.gamma :: pd2.Gamma, g.theta :: pd2.Theta,
      g.vega :: pd2.Vega, g.rho :: pd2.Rho, payoff s0 K option_type :: pd2.Payoff⟩, ?_⟩
    simp only [plot_data_loop, hg, hpd2]

/-- C8 witness: a concrete successful sweep (`S = K = 100`, `T = 1`,
`r = 1/20`, `q = 0`, `sigma = 1/5`, option type `"call"`) together with the
instantiated alignment conclusion. -/
theorem sweep_series_aligned_witness :
    ∃ pd, plot_data 100 100 1 (1/20) 0 (1/5) ("call") = Except.ok pd ∧
      ((pd.Delta.length = (S_range (100 : ℝ)).length ∧
        pd.Gamma.length = (S_range (100 : ℝ)).length ∧
        pd.Theta.length = (S_range (100 : ℝ)).length ∧
        pd.Vega.length = (S_range (100 : ℝ)).length ∧
        pd.Rho.length = (S_range (100 : ℝ)).length ∧
        pd.Payoff.length = (S_range (100 : ℝ)).length) ∧
      ∀ (i : ℕ) (s : ℝ), (S_range (100 : ℝ))[i]? = some s →
        ∃ g, black_scholes_option_price_and_greeks s 100 1 (1/20) 0 (1/5) ("call") =
            Except.ok g ∧
          pd.Delta[i]? = some g.delta ∧ pd.Gamma[i]? = some g.gamma ∧
          pd.Theta[i]? = some g.theta ∧ pd.Vega[i]? = some g.vega ∧
          pd.Rho[i]? = some g.rho ∧ pd.Payoff[i]? = some (payoff s 100 ("call"))) := by
  obtain ⟨pd, hpd⟩ := plot_data_loop_ok 100 1 (1/20) 0 (1/5) ("call")
    (Or.inl (by decide)) (by norm_num) (by norm_num) (by norm_num)
    (S_range (100 : ℝ)) S_range_100_pos
  exact ⟨pd, hpd, sweep_series_aligned 100 100 1 (1/20) 0 (1/5) ("call") pd hpd⟩

end DynamicGreeks
